import Mathlib

/-!
Verification of the nostr-bucket browser extension core against its
natural-language specification.

The development shallowly embeds the TypeScript sources:
* `src/background/backend-manager.ts` — the `BackendManager` class
  (priority-ordered connect with retry bounds, fallback, delegated data
  operations);
* `src/background/methods.ts` — `setBackend` and friends;
* `src/background/rpc-handler.ts` — the RPC dispatcher and the active-stream
  registry with its event/error/complete handlers;
* `src/inject/index.ts` — the page-side façade (request correlation,
  timeouts, and stream message handling);
* `src/background/backends/nostr-idb.ts` — the `replaceable` query.

Asynchronous methods are modelled as pure state transformers; provider calls
(`connect`, `close`, the data operation) are recorded in an explicit action
trace so that statements about which provider calls happen, and in which
order, can be made.  Backends themselves are abstracted to the observable
behaviour the manager consults: whether `connect()` resolves, what
`isConnected()` returns, and what a delegated data operation returns (with
`none` modelling a thrown exception).
-/

namespace NostrBucket

/-- A nostr event record, as in the `NostrEvent` type of nostr-tools:
`{id, pubkey, created_at, kind, tags, content, sig}`. -/
structure NostrEvent where
  id : String
  pubkey : String
  created_at : Int
  kind : Int
  tags : List (List String)
  content : String
  sig : String
  deriving Repr, DecidableEq

/-- Abstract behaviour of an `IBackend` instance, as observed by the
`BackendManager`: whether `connect()` resolves without throwing, what
`isConnected()` reports, and the outcome of a delegated data operation
(`none` models a thrown exception, `some b` a returned value). -/
structure Backend where
  connectOk : Bool
  connected : Bool
  addResult : Option Bool
  deriving Repr, DecidableEq

/-- `BackendConfig` from `src/background/backend-interface.ts`:
`{id, name, priority, backend}`; lower priority number is tried first. -/
structure BackendConfig where
  id : String
  name : String
  priority : Int
  backend : Backend
  deriving Repr, DecidableEq

/-- Provider-level calls made by the manager, recorded as a trace. -/
inductive Action where
  | connectCall (id : String)
  | closeCall (id : String)
  | opCall (id : String)
  deriving Repr, DecidableEq

/-- Recognizer for delegated-operation invocations in a trace. -/
def isOpCall : Action → Bool
  | .opCall _ => true
  | _ => false

/-- Number of delegated-operation invocations in a trace. -/
def opCount (tr : List Action) : Nat :=
  (tr.filter isOpCall).length

/-- The `connectionAttempts` map (`Map<string, number>`), modelled as an
association list. -/
abbrev AttemptsMap : Type := List (String × Nat)

/-- `connectionAttempts.get(id) || 0`. -/
def getAttempts (m : AttemptsMap) (id : String) : Nat :=
  (List.lookup id m).getD 0

/-- `connectionAttempts.set(id, n)`. -/
def setAttempts (m : AttemptsMap) (id : String) (n : Nat) : AttemptsMap :=
  (id, n) :: m.filter fun p => !(p.1 == id)

/-- `maxRetryAttempts` field of `BackendManager`. -/
def maxRetryAttempts : Nat := 3

/-- The mutable state of a `BackendManager` instance: the sorted descriptor
list, the current backend (as its descriptor), the attempt counters, the
fallback re-entrancy flag, and whether the health-check interval is set
(the interval handle is abstracted to its presence). -/
structure ManagerState where
  backends : List BackendConfig
  current : Option BackendConfig
  attempts : AttemptsMap
  fallbackInProgress : Bool
  healthCheckRunning : Bool
  deriving Repr, DecidableEq

namespace BackendManager

/-- `addBackend(config)`: push the descriptor and re-sort by ascending
priority (JavaScript `Array.prototype.sort` is stable, as is `mergeSort`). -/
def addBackend (s : ManagerState) (c : BackendConfig) : ManagerState :=
  { s with backends :=
      (s.backends ++ [c]).mergeSort fun a b => decide (a.priority ≤ b.priority) }

/-- The `for (const config of this.backends)` loop of `connect()`: skip
descriptors whose attempt counter has reached `maxRetryAttempts`; otherwise
call `connect()` and check `isConnected()`; on success set the counter to 0
and stop; on failure (a throw from `connect()` or `isConnected()` false)
increment the counter, close the backend, and continue.  Returns the winning
descriptor (if any), the updated counters, and the provider-call trace. -/
def connectLoop : List BackendConfig → AttemptsMap →
    Option BackendConfig × AttemptsMap × List Action
  | [], att => (none, att, [])
  | c :: rest, att =>
    let a := getAttempts att c.id
    if a ≥ maxRetryAttempts then
      connectLoop rest att
    else if c.backend.connectOk && c.backend.connected then
      (some c, setAttempts att c.id 0, [Action.connectCall c.id])
    else
      let r := connectLoop rest (setAttempts att c.id (a + 1))
      (r.1, r.2.1, Action.connectCall c.id :: Action.closeCall c.id :: r.2.2)

/-- `connect()`: close the current backend (if any) and clear it, then run
the priority-order loop; returns whether a backend was connected. -/
def connect (s : ManagerState) : Bool × ManagerState × List Action :=
  let closeTrace : List Action :=
    match s.current with
    | some c => [Action.closeCall c.id]
    | none => []
  let r := connectLoop s.backends s.attempts
  (r.1.isSome, { s with current := r.1, attempts := r.2.1 }, closeTrace ++ r.2.2)

/-- `isConnected()`: `currentBackend !== null && currentBackend.isConnected()`. -/
def isConnected (s : ManagerState) : Bool :=
  match s.current with
  | some c => c.backend.connected
  | none => false

/-- `attemptFallback()`: if a fallback is already in progress return `false`
immediately; otherwise set the flag, close and clear the current backend,
run a full `connect()` pass, and clear the flag. -/
def attemptFallback (s : ManagerState) : Bool × ManagerState × List Action :=
  if s.fallbackInProgress then
    (false, s, [])
  else
    let closeTrace : List Action :=
      match s.current with
      | some c => [Action.closeCall c.id]
      | none => []
    let s1 : ManagerState :=
      { s with fallbackInProgress := true, current := none }
    let r := connect s1
    (r.1, { r.2.1 with fallbackInProgress := false }, closeTrace ++ r.2.2)

/-- `ensureConnection()`: return `true` if the current backend is set and
healthy, otherwise attempt a fallback. -/
def ensureConnection (s : ManagerState) : Bool × ManagerState × List Action :=
  match s.current with
  | some c => if c.backend.connected then (true, s, []) else attemptFallback s
  | none => attemptFallback s

/-- Errors thrown by delegated operations: `"No backend connected"`,
`"No backend available after fallback"`, or a propagated backend exception. -/
inductive MgrError where
  | noBackendConnected
  | noBackendAvailable
  | opFailure
  deriving Repr, DecidableEq

/-- Common body of the delegated data operations `event`, `add`,
`replaceable` and `count` of `BackendManager` (the four methods are textually
identical up to the operation invoked): await `ensureConnection()`; throw if
no current backend; invoke the operation on the current backend; if it
throws, attempt one fallback and, if a current backend is then available,
retry the operation exactly once, propagating its outcome. -/
def delegate {α : Type} (op : Backend → Option α) (s : ManagerState) :
    Except MgrError α × ManagerState × List Action :=
  let e := ensureConnection s
  match e.2.1.current with
  | none => (.error .noBackendConnected, e.2.1, e.2.2)
  | some c =>
    match op c.backend with
    | some v => (.ok v, e.2.1, e.2.2 ++ [Action.opCall c.id])
    | none =>
      let f := attemptFallback e.2.1
      if f.1 then
        match f.2.1.current with
        | some c2 =>
          match op c2.backend with
          | some v =>
            (.ok v, f.2.1, e.2.2 ++ [Action.opCall c.id] ++ f.2.2 ++ [Action.opCall c2.id])
          | none =>
            (.error .opFailure, f.2.1,
              e.2.2 ++ [Action.opCall c.id] ++ f.2.2 ++ [Action.opCall c2.id])
        | none => (.error .noBackendAvailable, f.2.1, e.2.2 ++ [Action.opCall c.id] ++ f.2.2)
      else (.error .noBackendAvailable, f.2.1, e.2.2 ++ [Action.opCall c.id] ++ f.2.2)

/-- `add(event)` delegated through the manager. -/
def add (s : ManagerState) : Except MgrError Bool × ManagerState × List Action :=
  delegate (fun b => b.addResult) s

/-- `startHealthCheck()`: a no-op when the interval is already set. -/
def startHealthCheck (s : ManagerState) : ManagerState :=
  { s with healthCheckRunning := true }

/-- `stopHealthCheck()`: clear the interval if set. -/
def stopHealthCheck (s : ManagerState) : ManagerState :=
  { s with healthCheckRunning := false }

end BackendManager

/-- `setBackend(backendType)` from `src/background/methods.ts`: stop the
health check, run a fresh `connect()` pass (the requested type is never
consulted), throw `"Failed to connect to any backend"` if it fails,
otherwise restart the health check. -/
def setBackend (s : ManagerState) (backendType : String) :
    Except String ManagerState × List Action :=
  let _ := backendType
  let s1 := BackendManager.stopHealthCheck s
  let r := BackendManager.connect s1
  if r.1 then
    (.ok (BackendManager.startHealthCheck r.2.1), r.2.2)
  else
    (.error "Failed to connect to any backend", r.2.2)

/-! ### Specification-side characterization of `connect()`

The following definitions restate, in terms of the initial attempt counters,
which candidate `connect()` is specified to select, which candidates it is
specified to try and fail, and which provider calls it is specified to make.
They are compared with the embedded code in the theorem for claim C1. -/

/-- A descriptor is eligible when its attempt counter is below the retry
bound. -/
def eligible (att : AttemptsMap) (c : BackendConfig) : Bool :=
  getAttempts att c.id < maxRetryAttempts

/-- A candidate succeeds when its `connect()` resolves and `isConnected()`
then reports true. -/
def connectSucceeds (c : BackendConfig) : Bool :=
  c.backend.connectOk && c.backend.connected

/-- The first eligible succeeding descriptor in list order. -/
def firstWinner (att : AttemptsMap) (l : List BackendConfig) : Option BackendConfig :=
  l.find? fun c => eligible att c && connectSucceeds c

/-- The eligible candidates tried and failed before the winner (all eligible
candidates when there is no winner). -/
def failedBeforeWinner (att : AttemptsMap) (l : List BackendConfig) : List BackendConfig :=
  (l.filter (eligible att)).takeWhile fun c => !connectSucceeds c

/-- The provider calls the connect pass is specified to make: skip
ineligible descriptors; a failed candidate is connected then closed before
the next is tried; the winning candidate ends the pass. -/
def connectTraceSpec (att : AttemptsMap) : List BackendConfig → List Action
  | [] => []
  | c :: rest =>
    if eligible att c then
      if connectSucceeds c then [Action.connectCall c.id]
      else Action.connectCall c.id :: Action.closeCall c.id :: connectTraceSpec att rest
    else connectTraceSpec att rest

theorem lookup_filter_ne (m : AttemptsMap) (x y : String) (h : y ≠ x) :
    List.lookup y (m.filter fun p => !(p.1 == x)) = List.lookup y m := by
  induction m with
  | nil => rfl
  | cons a t ih =>
    rw [List.filter_cons]
    by_cases hax : a.1 = x
    · have hcond : ¬ ((!(a.1 == x)) = true) := by simp [hax]
      rw [if_neg hcond, ih]
      have hya : (y == a.1) = false := by
        apply beq_eq_false_iff_ne.mpr
        rw [hax]; exact h
      simp [List.lookup, hya]
    · have hcond : (!(a.1 == x)) = true := by simp [hax]
      rw [if_pos hcond]
      simp only [List.lookup]
      cases hya : (y == a.1) <;> simp [hya, ih]

theorem getAttempts_set (m : AttemptsMap) (x : String) (n : Nat) (y : String) :
    getAttempts (setAttempts m x n) y = if y = x then n else getAttempts m y := by
  by_cases h : y = x
  · simp [getAttempts, setAttempts, List.lookup, h]
  · have hb : ¬ (y == x) := by simp [h]
    simp [getAttempts, setAttempts, List.lookup, hb, h, lookup_filter_ne m x y h]

theorem findCongr {α : Type} {p q : α → Bool} :
    ∀ {l : List α}, (∀ x ∈ l, p x = q x) → l.find? p = l.find? q
  | [], _ => rfl
  | a :: t, h => by
    have ha : p a = q a := h a (List.mem_cons_self a t)
    have ht : ∀ x ∈ t, p x = q x := fun x hx => h x (List.mem_cons_of_mem a hx)
    simp only [List.find?]
    rw [ha, findCongr ht]

theorem takeWhileCongr {α : Type} {p q : α → Bool} :
    ∀ {l : List α}, (∀ x ∈ l, p x = q x) → l.takeWhile p = l.takeWhile q
  | [], _ => rfl
  | a :: t, h => by
    have ha : p a = q a := h a (List.mem_cons_self a t)
    have ht : ∀ x ∈ t, p x = q x := fun x hx => h x (List.mem_cons_of_mem a hx)
    simp only [List.takeWhile]
    rw [ha, takeWhileCongr ht]

theorem eligible_set_ne (att : AttemptsMap) (x : String) (n : Nat)
    (d : BackendConfig) (h : d.id ≠ x) :
    eligible (setAttempts att x n) d = eligible att d := by
  simp [eligible, getAttempts_set, h]

theorem traceSpecCongr {att att' : AttemptsMap} :
    ∀ {l : List BackendConfig}, (∀ d ∈ l, eligible att d = eligible att' d) →
      connectTraceSpec att l = connectTraceSpec att' l
  | [], _ => rfl
  | c :: rest, h => by
    have hc : eligible att c = eligible att' c := h c (List.mem_cons_self c rest)
    have ht : ∀ d ∈ rest, eligible att d = eligible att' d :=
      fun d hd => h d (List.mem_cons_of_mem c hd)
    simp only [connectTraceSpec]
    rw [hc, traceSpecCongr ht]

theorem connectLoop_cons_skip (c : BackendConfig) (rest : List BackendConfig)
    (att : AttemptsMap) (h : ¬ eligible att c = true) :
    BackendManager.connectLoop (c :: rest) att = BackendManager.connectLoop rest att := by
  have hge : getAttempts att c.id ≥ maxRetryAttempts := by
    simp only [eligible, decide_eq_true_eq] at h
    omega
  simp [BackendManager.connectLoop, hge]

theorem connectLoop_cons_win (c : BackendConfig) (rest : List BackendConfig)
    (att : AttemptsMap) (h1 : eligible att c = true) (h2 : connectSucceeds c = true) :
    BackendManager.connectLoop (c :: rest) att =
      (some c, setAttempts att c.id 0, [Action.connectCall c.id]) := by
  have hlt : ¬ getAttempts att c.id ≥ maxRetryAttempts := by
    simp only [eligible, decide_eq_true_eq] at h1
    omega
  simp only [connectSucceeds] at h2
  simp [BackendManager.connectLoop, hlt, h2]

theorem connectLoop_cons_fail (c : BackendConfig) (rest : List BackendConfig)
    (att : AttemptsMap) (h1 : eligible att c = true) (h2 : ¬ connectSucceeds c = true) :
    BackendManager.connectLoop (c :: rest) att =
      ((BackendManager.connectLoop rest (setAttempts att c.id (getAttempts att c.id + 1))).1,
       (BackendManager.connectLoop rest (setAttempts att c.id (getAttempts att c.id + 1))).2.1,
       Action.connectCall c.id :: Action.closeCall c.id ::
         (BackendManager.connectLoop rest (setAttempts att c.id (getAttempts att c.id + 1))).2.2) := by
  have hlt : ¬ getAttempts att c.id ≥ maxRetryAttempts := by
    simp only [eligible, decide_eq_true_eq] at h1
    omega
  simp only [connectSucceeds] at h2
  simp [BackendManager.connectLoop, hlt, h2]

theorem firstWinner_cons (att : AttemptsMap) (c : BackendConfig) (rest : List BackendConfig) :
    firstWinner att (c :: rest) =
      if eligible att c && connectSucceeds c then some c else firstWinner att rest := by
  cases h : eligible att c && connectSucceeds c <;>
    simp [firstWinner, List.find?_cons, h]

theorem failedBeforeWinner_cons (att : AttemptsMap) (c : BackendConfig)
    (rest : List BackendConfig) :
    failedBeforeWinner att (c :: rest) =
      if eligible att c then
        (if connectSucceeds c then [] else c :: failedBeforeWinner att rest)
      else failedBeforeWinner att rest := by
  by_cases he : eligible att c = true
  · by_cases hs : connectSucceeds c = true
    · simp [failedBeforeWinner, List.filter_cons, he, List.takeWhile, hs]
    · have hs' : connectSucceeds c = false := by simpa using hs
      simp [failedBeforeWinner, List.filter_cons, he, List.takeWhile, hs']
  · have he' : eligible att c = false := by simpa using he
    simp [failedBeforeWinner, List.filter_cons, he']

theorem firstWinner_set_ne (att : AttemptsMap) (x : String) (n : Nat)
    (rest : List BackendConfig) (h : ∀ d ∈ rest, d.id ≠ x) :
    firstWinner (setAttempts att x n) rest = firstWinner att rest :=
  findCongr fun d hd => by rw [eligible_set_ne att x n d (h d hd)]

theorem failedBeforeWinner_set_ne (att : AttemptsMap) (x : String) (n : Nat)
    (rest : List BackendConfig) (h : ∀ d ∈ rest, d.id ≠ x) :
    failedBeforeWinner (setAttempts att x n) rest = failedBeforeWinner att rest := by
  unfold failedBeforeWinner
  rw [List.filter_congr fun d hd => eligible_set_ne att x n d (h d hd)]

theorem traceSpec_set_ne (att : AttemptsMap) (x : String) (n : Nat)
    (rest : List BackendConfig) (h : ∀ d ∈ rest, d.id ≠ x) :
    connectTraceSpec (setAttempts att x n) rest = connectTraceSpec att rest :=
  traceSpecCongr fun d hd => eligible_set_ne att x n d (h d hd)

theorem failedBeforeWinner_subset (att : AttemptsMap) (l : List BackendConfig) :
    failedBeforeWinner att l ⊆ l :=
  ((List.takeWhile_sublist _).trans (List.filter_sublist _)).subset

theorem firstWinner_any_ne (att : AttemptsMap) (rest : List BackendConfig) (x : String)
    (h : ∀ d ∈ rest, d.id ≠ x) :
    Option.any (fun w => w.id == x) (firstWinner att rest) = false := by
  cases hw : firstWinner att rest with
  | none => rfl
  | some w =>
    have hmem : w ∈ rest := List.mem_of_find?_eq_some hw
    simp [Option.any, h w hmem]

theorem failedBeforeWinner_any_ne (att : AttemptsMap) (rest : List BackendConfig) (x : String)
    (h : ∀ d ∈ rest, d.id ≠ x) :
    (failedBeforeWinner att rest).any (fun c => c.id == x) = false := by
  rw [List.any_eq_false]
  intro d hd
  simp [h d (failedBeforeWinner_subset att rest hd)]

theorem memTakeWhile {α : Type} {p : α → Bool} :
    ∀ {l : List α} {x : α}, x ∈ l.takeWhile p → p x = true
  | a :: t, x, h => by
    cases hpa : p a
    · simp [List.takeWhile_cons, hpa] at h
    · simp only [List.takeWhile_cons, hpa] at h
      rcases List.mem_cons.mp h with h1 | h2
      · rw [h1]; exact hpa
      · exact memTakeWhile h2

theorem notMemMapId {c : BackendConfig} {rest : List BackendConfig}
    (hcx : c.id ∉ rest.map fun b => b.id) :
    ∀ d ∈ rest, d.id ≠ c.id :=
  fun d hd hEq => hcx (List.mem_map.mpr ⟨d, hd, hEq⟩)

theorem connectLoop_winner :
    ∀ (l : List BackendConfig) (att : AttemptsMap),
      (l.map fun c => c.id).Nodup →
      (BackendManager.connectLoop l att).1 = firstWinner att l
  | [], _, _ => rfl
  | c :: rest, att, hnd => by
    rw [List.map_cons, List.nodup_cons] at hnd
    obtain ⟨hcx, hrest⟩ := hnd
    have hne := notMemMapId hcx
    by_cases he : eligible att c = true
    · by_cases hs : connectSucceeds c = true
      · rw [connectLoop_cons_win c rest att he hs, firstWinner_cons]
        simp [he, hs]
      · rw [connectLoop_cons_fail c rest att he hs]
        have hs' : connectSucceeds c = false := by simpa using hs
        rw [firstWinner_cons]
        simp only [hs', Bool.and_false, if_neg Bool.false_ne_true]
        rw [connectLoop_winner rest _ hrest, firstWinner_set_ne att c.id _ rest hne]
    · rw [connectLoop_cons_skip c rest att he, connectLoop_winner rest att hrest,
        firstWinner_cons]
      have he' : eligible att c = false := by simpa using he
      simp [he']

theorem connectLoop_trace :
    ∀ (l : List BackendConfig) (att : AttemptsMap),
      (l.map fun c => c.id).Nodup →
      (BackendManager.connectLoop l att).2.2 = connectTraceSpec att l
  | [], _, _ => rfl
  | c :: rest, att, hnd => by
    rw [List.map_cons, List.nodup_cons] at hnd
    obtain ⟨hcx, hrest⟩ := hnd
    have hne := notMemMapId hcx
    by_cases he : eligible att c = true
    · by_cases hs : connectSucceeds c = true
      · rw [connectLoop_cons_win c rest att he hs]
        simp [connectTraceSpec, he, hs]
      · rw [connectLoop_cons_fail c rest att he hs]
        have hs' : connectSucceeds c = false := by simpa using hs
        simp only [connectTraceSpec, he, hs', if_true, if_false, Bool.false_eq_true]
        rw [connectLoop_trace rest _ hrest, traceSpec_set_ne att c.id _ rest hne]
    · rw [connectLoop_cons_skip c rest att he, connectLoop_trace rest att hrest]
      have he' : eligible att c = false := by simpa using he
      simp [connectTraceSpec, he']

theorem connectLoop_attempts :
    ∀ (l : List BackendConfig) (att : AttemptsMap),
      (l.map fun c => c.id).Nodup →
      ∀ x : String,
        getAttempts (BackendManager.connectLoop l att).2.1 x =
          if Option.any (fun w => w.id == x) (firstWinner att l) then 0
          else if (failedBeforeWinner att l).any (fun c => c.id == x) then
            getAttempts att x + 1
          else getAttempts att x
  | [], att, _, x => by
    simp [BackendManager.connectLoop, firstWinner, failedBeforeWinner]
  | c :: rest, att, hnd, x => by
    rw [List.map_cons, List.nodup_cons] at hnd
    obtain ⟨hcx, hrest⟩ := hnd
    have hne := notMemMapId hcx
    by_cases he : eligible att c = true
    · by_cases hs : connectSucceeds c = true
      · rw [connectLoop_cons_win c rest att he hs]
        rw [firstWinner_cons, failedBeforeWinner_cons]
        simp only [he, hs, Bool.and_self, if_true]
        by_cases hx : x = c.id
        · simp [getAttempts_set, hx, Option.any]
        · have : (c.id == x) = false := by
            apply beq_eq_false_iff_ne.mpr
            exact fun hEq => hx hEq.symm
          simp [getAttempts_set, hx, Option.any, this]
      · rw [connectLoop_cons_fail c rest att he hs]
        have hs' : connectSucceeds c = false := by simpa using hs
        have main := connectLoop_attempts rest
          (setAttempts att c.id (getAttempts att c.id + 1)) hrest x
        rw [firstWinner_set_ne att c.id _ rest hne,
          failedBeforeWinner_set_ne att c.id _ rest hne] at main
        rw [main, firstWinner_cons, failedBeforeWinner_cons]
        simp only [he, hs', Bool.and_false, if_true, if_false, Bool.false_eq_true]
        by_cases hx : x = c.id
        · have h1 : Option.any (fun w => w.id == x) (firstWinner att rest) = false := by
            apply firstWinner_any_ne
            intro d hd
            rw [hx]
            exact hne d hd
          have h2 : (failedBeforeWinner att rest).any (fun c => c.id == x) = false := by
            apply failedBeforeWinner_any_ne
            intro d hd
            rw [hx]
            exact hne d hd
          have h3 : (c.id == x) = true := by simp [hx]
          rw [h1, h2]
          simp only [List.any_cons, h3, Bool.true_or, if_true, if_false,
            Bool.false_eq_true]
          rw [getAttempts_set]
          simp [hx]
        · have h3 : (c.id == x) = false := by
            apply beq_eq_false_iff_ne.mpr
            exact fun hEq => hx hEq.symm
          rw [getAttempts_set]
          simp only [hx, if_false, List.any_cons, h3, Bool.false_or]
    · rw [connectLoop_cons_skip c rest att he]
      have he' : eligible att c = false := by simpa using he
      rw [connectLoop_attempts rest att hrest x, firstWinner_cons, failedBeforeWinner_cons]
      simp [he']

/-! ### Concrete example states used by the witnesses -/

/-- Example: the relay descriptor of `methods.ts` with a backend whose
`connect()` throws. -/
def relayDown : BackendConfig :=
  { id := "relay", name := "Local Relay", priority := 1,
    backend := { connectOk := false, connected := false, addResult := none } }

/-- Example: the IndexedDB descriptor of `methods.ts` with a healthy
backend. -/
def idbUp : BackendConfig :=
  { id := "idb", name := "IndexedDB", priority := 2,
    backend := { connectOk := true, connected := true, addResult := some true } }

/-- Example manager state: both descriptors registered, nothing connected
yet, all counters zero. -/
def exampleState : ManagerState :=
  { backends := [relayDown, idbUp], current := none, attempts := [],
    fallbackInProgress := false, healthCheckRunning := false }

/-- C1: for every manager state with distinct descriptor ids, `connect()`
first clears (and closes) the current provider, then tries descriptors in
list order — the order `addBackend` keeps ascending by priority — skipping
those whose attempt counter has reached the retry bound 3; the first
candidate whose `connect()` succeeds with `isConnected()` true becomes
current with its counter reset to 0 and `connect()` returns true; every
failed candidate has its counter incremented and its `close()` called before
the next is tried; if no candidate succeeds, `connect()` returns false, the
current provider stays unset, and `isConnected()` is false afterward. -/
theorem c1_connect_priority_selection (s : ManagerState)
    (hnd : (s.backends.map fun c => c.id).Nodup) :
    ((BackendManager.connect s).1 = (firstWinner s.attempts s.backends).isSome)
    ∧ (BackendManager.connect s).2.1.current = firstWinner s.attempts s.backends
    ∧ (∀ w, firstWinner s.attempts s.backends = some w →
        getAttempts (BackendManager.connect s).2.1.attempts w.id = 0)
    ∧ ((BackendManager.connect s).1 = false →
        (BackendManager.connect s).2.1.current = none ∧
          BackendManager.isConnected (BackendManager.connect s).2.1 = false)
    ∧ (∀ c ∈ failedBeforeWinner s.attempts s.backends,
        getAttempts (BackendManager.connect s).2.1.attempts c.id =
          getAttempts s.attempts c.id + 1)
    ∧ (BackendManager.connect s).2.2 =
        (match s.current with
         | some c => [Action.closeCall c.id]
         | none => []) ++ connectTraceSpec s.attempts s.backends
    ∧ (∀ c, ((BackendManager.addBackend s c).backends.map fun b => b.priority).Sorted
        (· ≤ ·)) := by
  have hwin := connectLoop_winner s.backends s.attempts hnd
  have htr := connectLoop_trace s.backends s.attempts hnd
  have hatt := connectLoop_attempts s.backends s.attempts hnd
  refine ⟨?_, ?_, ?_, ?_, ?_, ?_, ?_⟩
  · simp [BackendManager.connect, hwin]
  · simp [BackendManager.connect, hwin]
  · intro w hw
    have := hatt w.id
    rw [hw] at this
    simp only [Option.any, beq_self_eq_true, if_true] at this
    simpa [BackendManager.connect] using this
  · intro hfalse
    have hnone : firstWinner s.attempts s.backends = none := by
      simp only [BackendManager.connect] at hfalse
      rw [hwin] at hfalse
      exact Option.not_isSome_iff_eq_none.mp (by simp [hfalse])
    constructor
    · simp [BackendManager.connect, hwin, hnone]
    · simp [BackendManager.connect, BackendManager.isConnected, hwin, hnone]
  · intro c hc
    have hfail : (failedBeforeWinner s.attempts s.backends).any
        (fun d => d.id == c.id) = true := by
      rw [List.any_eq_true]
      exact ⟨c, hc, by simp⟩
    have hnowin : Option.any (fun w => w.id == c.id)
        (firstWinner s.attempts s.backends) = false := by
      cases hw : firstWinner s.attempts s.backends with
      | none => rfl
      | some w =>
        have hwmem : w ∈ s.backends := List.mem_of_find?_eq_some hw
        have hwp := List.find?_some hw
        have hcmem : c ∈ s.backends := failedBeforeWinner_subset _ _ hc
        have hcfail : (!connectSucceeds c) = true := by
          unfold failedBeforeWinner at hc
          exact @memTakeWhile _ (fun d => !connectSucceeds d) _ _ hc
        have hwsucc : connectSucceeds w = true := by
          simp only [Bool.and_eq_true] at hwp
          exact hwp.2
        simp only [Option.any]
        apply beq_eq_false_iff_ne.mpr
        intro hEq
        have : w = c := List.inj_on_of_nodup_map hnd hwmem hcmem hEq
        rw [← this, hwsucc] at hcfail
        simp at hcfail
    have := hatt c.id
    rw [hnowin, hfail] at this
    simpa [BackendManager.connect] using this
  · simp [BackendManager.connect, htr]
  · intro c
    have hsorted := @List.sorted_mergeSort BackendConfig
      (fun a b : BackendConfig => decide (a.priority ≤ b.priority))
      (fun a b d hab hbd => by
        simp only [decide_eq_true_eq] at *
        omega)
      (fun a b => by
        simp only [Bool.or_eq_true, decide_eq_true_eq]
        omega)
      (s.backends ++ [c])
    rw [List.Sorted, List.pairwise_map]
    exact hsorted.imp fun h => by simpa using h

/-- Witness for C1: the spec's example scenario — relay (priority 1) fails
to connect, IndexedDB (priority 2) succeeds — selects the IndexedDB backend,
returns true, and leaves the relay's counter at 1. -/
theorem c1_connect_priority_selection_witness :
    (BackendManager.connect exampleState).2.1.current =
        firstWinner exampleState.attempts exampleState.backends
      ∧ firstWinner exampleState.attempts exampleState.backends = some idbUp
      ∧ (BackendManager.connect exampleState).1 = true
      ∧ getAttempts (BackendManager.connect exampleState).2.1.attempts "relay" = 1 := by
  refine ⟨(c1_connect_priority_selection exampleState (by decide)).2.1, by decide, ?_, ?_⟩
  · rw [(c1_connect_priority_selection exampleState (by decide)).1]
    decide
  · have := (c1_connect_priority_selection exampleState (by decide)).2.2.2.2.1
      relayDown (by decide)
    simpa using this

/-- C5: if the fallback-in-progress flag is set when `attemptFallback()` is
entered, the call returns false immediately, performs no provider `connect`
or `close` calls (empty trace), and changes nothing (the state is returned
untouched, so the current provider and all attempt counters are unchanged);
otherwise it sets the flag, closes the current provider if any, performs one
full `connect()` pass, and the flag is cleared in the returned state. -/
theorem c5_fallback_reentrancy (s : ManagerState) :
    (s.fallbackInProgress = true →
      BackendManager.attemptFallback s = (false, s, []))
    ∧ (s.fallbackInProgress = false →
      BackendManager.attemptFallback s =
        ((BackendManager.connect { s with fallbackInProgress := true, current := none }).1,
         { (BackendManager.connect
              { s with fallbackInProgress := true, current := none }).2.1 with
            fallbackInProgress := false },
         (match s.current with
          | some c => [Action.closeCall c.id]
          | none => []) ++
           (BackendManager.connect
             { s with fallbackInProgress := true, current := none }).2.2)) := by
  constructor
  · intro h
    simp [BackendManager.attemptFallback, h]
  · intro h
    simp [BackendManager.attemptFallback, h]

/-- Witness for C5: on a state whose fallback flag is set, `attemptFallback`
returns false with no provider calls and the state unchanged. -/
theorem c5_fallback_reentrancy_witness :
    BackendManager.attemptFallback { exampleState with fallbackInProgress := true } =
      (false, { exampleState with fallbackInProgress := true }, []) :=
  (c5_fallback_reentrancy { exampleState with fallbackInProgress := true }).1 rfl

theorem opCount_append (t1 t2 : List Action) :
    opCount (t1 ++ t2) = opCount t1 + opCount t2 := by
  simp [opCount, List.filter_append]

theorem opCount_single_op (id : String) : opCount [Action.opCall id] = 1 := rfl

theorem opCount_eq_zero {tr : List Action}
    (h : ∀ a ∈ tr, isOpCall a = false) : opCount tr = 0 := by
  induction tr with
  | nil => rfl
  | cons a t ih =>
    have ha : isOpCall a = false := h a (List.mem_cons_self a t)
    simp only [opCount, List.filter_cons, ha, Bool.false_eq_true, if_false]
    exact ih fun b hb => h b (List.mem_cons_of_mem a hb)

theorem connectLoop_no_op :
    ∀ (l : List BackendConfig) (att : AttemptsMap) (a : Action),
      a ∈ (BackendManager.connectLoop l att).2.2 → isOpCall a = false
  | [], _, a, h => absurd h (List.not_mem_nil a)
  | c :: rest, att, a, h => by
    by_cases he : eligible att c = true
    · by_cases hs : connectSucceeds c = true
      · rw [connectLoop_cons_win c rest att he hs] at h
        rw [List.mem_singleton.mp h]
        rfl
      · rw [connectLoop_cons_fail c rest att he hs] at h
        rcases List.mem_cons.mp h with h1 | h2
        · rw [h1]; rfl
        · rcases List.mem_cons.mp h2 with h3 | h4
          · rw [h3]; rfl
          · exact connectLoop_no_op rest _ a h4
    · rw [connectLoop_cons_skip c rest att he] at h
      exact connectLoop_no_op rest att a h

theorem connect_no_op (s : ManagerState) :
    ∀ a ∈ (BackendManager.connect s).2.2, isOpCall a = false := by
  intro a h
  have h' : a ∈ (match s.current with
      | some c => [Action.closeCall c.id]
      | none => []) ++ (BackendManager.connectLoop s.backends s.attempts).2.2 := h
  rcases List.mem_append.mp h' with h1 | h2
  · cases hc : s.current with
    | none => rw [hc] at h1; cases h1
    | some c =>
      rw [hc] at h1
      rw [List.mem_singleton.mp h1]
      rfl
  · exact connectLoop_no_op s.backends s.attempts a h2

theorem fallback_no_op (s : ManagerState) :
    ∀ a ∈ (BackendManager.attemptFallback s).2.2, isOpCall a = false := by
  intro a h
  by_cases hf : s.fallbackInProgress = true
  · simp only [BackendManager.attemptFallback, hf, if_true] at h
    cases h
  · have hf' : s.fallbackInProgress = false := by simpa using hf
    simp only [BackendManager.attemptFallback, hf', Bool.false_eq_true, if_false] at h
    rcases List.mem_append.mp h with h1 | h2
    · cases hc : s.current with
      | none => rw [hc] at h1; cases h1
      | some c =>
        rw [hc] at h1
        rw [List.mem_singleton.mp h1]
        rfl
    · exact connect_no_op _ a h2

theorem ensure_no_op (s : ManagerState) :
    ∀ a ∈ (BackendManager.ensureConnection s).2.2, isOpCall a = false := by
  intro a h
  cases hc : s.current with
  | none =>
    simp only [BackendManager.ensureConnection, hc] at h
    exact fallback_no_op s a h
  | some c =>
    by_cases hcon : c.backend.connected = true
    · simp only [BackendManager.ensureConnection, hc, hcon, if_true] at h
      cases h
    · have hcon' : c.backend.connected = false := by simpa using hcon
      simp only [BackendManager.ensureConnection, hc, hcon', Bool.false_eq_true,
        if_false] at h
      exact fallback_no_op s a h

theorem delegate_eq_noCurrent {α : Type} (op : Backend → Option α) (s : ManagerState)
    (h : (BackendManager.ensureConnection s).2.1.current = none) :
    BackendManager.delegate op s =
      (.error .noBackendConnected, (BackendManager.ensureConnection s).2.1,
        (BackendManager.ensureConnection s).2.2) := by
  simp only [BackendManager.delegate]
  split
  · rfl
  · rename_i c heq
    rw [h] at heq
    cases heq

theorem delegate_eq_firstTry {α : Type} (op : Backend → Option α) (s : ManagerState)
    {c : BackendConfig} {v : α}
    (h : (BackendManager.ensureConnection s).2.1.current = some c)
    (hop : op c.backend = some v) :
    BackendManager.delegate op s =
      (.ok v, (BackendManager.ensureConnection s).2.1,
        (BackendManager.ensureConnection s).2.2 ++ [Action.opCall c.id]) := by
  simp only [BackendManager.delegate]
  split
  · rename_i heq
    rw [heq] at h
    cases h
  · rename_i c' heq
    rw [h] at heq
    injection heq with hc
    subst hc
    rw [hop]

theorem delegate_eq_fallbackFalse {α : Type} (op : Backend → Option α) (s : ManagerState)
    {c : BackendConfig}
    (h : (BackendManager.ensureConnection s).2.1.current = some c)
    (hop : op c.backend = none)
    (hfb : (BackendManager.attemptFallback (BackendManager.ensureConnection s).2.1).1
      = false) :
    BackendManager.delegate op s =
      (.error .noBackendAvailable,
       (BackendManager.attemptFallback (BackendManager.ensureConnection s).2.1).2.1,
       (BackendManager.ensureConnection s).2.2 ++ [Action.opCall c.id] ++
         (BackendManager.attemptFallback (BackendManager.ensureConnection s).2.1).2.2) := by
  simp only [BackendManager.delegate]
  split
  · rename_i heq
    rw [heq] at h
    cases h
  · rename_i c' heq
    rw [h] at heq
    injection heq with hc
    subst hc
    rw [hop]
    split
    · rename_i v hv
      cases hv
    · rw [hfb]
      simp

theorem delegate_eq_fallbackNoCurrent {α : Type} (op : Backend → Option α)
    (s : ManagerState) {c : BackendConfig}
    (h : (BackendManager.ensureConnection s).2.1.current = some c)
    (hop : op c.backend = none)
    (hfb : (BackendManager.attemptFallback (BackendManager.ensureConnection s).2.1).1
      = true)
    (hfc : (BackendManager.attemptFallback
        (BackendManager.ensureConnection s).2.1).2.1.current = none) :
    BackendManager.delegate op s =
      (.error .noBackendAvailable,
       (BackendManager.attemptFallback (BackendManager.ensureConnection s).2.1).2.1,
       (BackendManager.ensureConnection s).2.2 ++ [Action.opCall c.id] ++
         (BackendManager.attemptFallback (BackendManager.ensureConnection s).2.1).2.2) := by
  simp only [BackendManager.delegate]
  split
  · rename_i heq
    rw [heq] at h
    cases h
  · rename_i c' heq
    rw [h] at heq
    injection heq with hc
    subst hc
    rw [hop]
    split
    · rename_i v hv
      cases hv
    · rw [hfb, hfc]
      simp

theorem delegate_eq_retry {α : Type} (op : Backend → Option α) (s : ManagerState)
    {c c2 : BackendConfig}
    (h : (BackendManager.ensureConnection s).2.1.current = some c)
    (hop : op c.backend = none)
    (hfb : (BackendManager.attemptFallback (BackendManager.ensureConnection s).2.1).1
      = true)
    (hfc : (BackendManager.attemptFallback
        (BackendManager.ensureConnection s).2.1).2.1.current = some c2) :
    BackendManager.delegate op s =
      ((match op c2.backend with
        | some v => .ok v
        | none => .error .opFailure),
       (BackendManager.attemptFallback (BackendManager.ensureConnection s).2.1).2.1,
       (BackendManager.ensureConnection s).2.2 ++ [Action.opCall c.id] ++
         (BackendManager.attemptFallback (BackendManager.ensureConnection s).2.1).2.2 ++
         [Action.opCall c2.id]) := by
  simp only [BackendManager.delegate]
  split
  · rename_i heq
    rw [heq] at h
    cases h
  · rename_i c' heq
    rw [h] at heq
    injection heq with hc
    subst hc
    rw [hop]
    split
    · rename_i v hv
      cases hv
    · rw [hfb, hfc]
      cases hop2 : op c2.backend <;> simp [hop2]

/-- C2: every delegated data operation (`event`, `add`, `replaceable`,
`count` share the body embedded as `delegate`) calls `ensureConnection()`
first; if the resulting current provider is absent the call rejects with the
no-backend-connected error and the operation is never invoked; if the
operation on the current provider returns, its result is returned after a
single invocation; if it throws, one fallback is attempted and the operation
is retried exactly once against the new current provider, returning that
retry's outcome (success or failure); if the fallback fails or leaves no
current provider, the call rejects with the no-provider-available error
after a single invocation; in every case at most two invocations (at most
one retry) occur. -/
theorem c2_delegate_single_retry {α : Type} (op : Backend → Option α) (s : ManagerState) :
    opCount (BackendManager.delegate op s).2.2 ≤ 2
    ∧ ((BackendManager.ensureConnection s).2.1.current = none →
        (BackendManager.delegate op s).1 = .error .noBackendConnected
        ∧ opCount (BackendManager.delegate op s).2.2 = 0)
    ∧ (∀ c, (BackendManager.ensureConnection s).2.1.current = some c →
        (∀ v, op c.backend = some v →
          (BackendManager.delegate op s).1 = .ok v
          ∧ opCount (BackendManager.delegate op s).2.2 = 1)
        ∧ (op c.backend = none →
            (((BackendManager.attemptFallback
                  (BackendManager.ensureConnection s).2.1).1 = false ∨
               (BackendManager.attemptFallback
                  (BackendManager.ensureConnection s).2.1).2.1.current = none) →
              (BackendManager.delegate op s).1 = .error .noBackendAvailable
              ∧ opCount (BackendManager.delegate op s).2.2 = 1)
            ∧ (∀ c2,
                (BackendManager.attemptFallback
                  (BackendManager.ensureConnection s).2.1).2.1.current = some c2 →
                (BackendManager.attemptFallback
                  (BackendManager.ensureConnection s).2.1).1 = true →
                opCount (BackendManager.delegate op s).2.2 = 2
                ∧ (BackendManager.delegate op s).1 =
                    (match op c2.backend with
                     | some v => Except.ok v
                     | none => Except.error .opFailure)))) := by
  have he0 : opCount (BackendManager.ensureConnection s).2.2 = 0 :=
    opCount_eq_zero (ensure_no_op s)
  have hf0 : opCount
      (BackendManager.attemptFallback (BackendManager.ensureConnection s).2.1).2.2 = 0 :=
    opCount_eq_zero (fallback_no_op _)
  refine ⟨?_, ?_, ?_⟩
  · rcases hcur : (BackendManager.ensureConnection s).2.1.current with _ | c
    · rw [delegate_eq_noCurrent op s hcur]
      simpa using Nat.le_of_eq he0 |>.trans (by omega)
    · rcases hop : op c.backend with _ | v
      · cases hfb : (BackendManager.attemptFallback
            (BackendManager.ensureConnection s).2.1).1 with
        | false =>
          rw [delegate_eq_fallbackFalse op s hcur hop hfb]
          show opCount (_ ++ _ ++ _) ≤ 2
          rw [opCount_append, opCount_append, he0, hf0, opCount_single_op]
          omega
        | true =>
          rcases hfc : (BackendManager.attemptFallback
              (BackendManager.ensureConnection s).2.1).2.1.current with _ | c2
          · rw [delegate_eq_fallbackNoCurrent op s hcur hop hfb hfc]
            show opCount (_ ++ _ ++ _) ≤ 2
            rw [opCount_append, opCount_append, he0, hf0, opCount_single_op]
            omega
          · rw [delegate_eq_retry op s hcur hop hfb hfc]
            show opCount (_ ++ _ ++ _ ++ _) ≤ 2
            rw [opCount_append, opCount_append, opCount_append, he0, hf0,
              opCount_single_op, opCount_single_op]
      · rw [delegate_eq_firstTry op s hcur hop]
        show opCount (_ ++ _) ≤ 2
        rw [opCount_append, he0, opCount_single_op]
        omega
  · intro hn
    rw [delegate_eq_noCurrent op s hn]
    exact ⟨rfl, he0⟩
  · intro c hc
    constructor
    · intro v hv
      rw [delegate_eq_firstTry op s hc hv]
      refine ⟨rfl, ?_⟩
      show opCount (_ ++ _) = 1
      rw [opCount_append, he0, opCount_single_op]
    · intro hop
      constructor
      · intro hor
        cases hfb : (BackendManager.attemptFallback
            (BackendManager.ensureConnection s).2.1).1 with
        | false =>
          rw [delegate_eq_fallbackFalse op s hc hop hfb]
          refine ⟨rfl, ?_⟩
          show opCount (_ ++ _ ++ _) = 1
          rw [opCount_append, opCount_append, he0, hf0, opCount_single_op]
        | true =>
          rcases hor with h1 | h1
          · rw [hfb] at h1
            cases h1
          · rw [delegate_eq_fallbackNoCurrent op s hc hop hfb h1]
            refine ⟨rfl, ?_⟩
            show opCount (_ ++ _ ++ _) = 1
            rw [opCount_append, opCount_append, he0, hf0, opCount_single_op]
      · intro c2 hfc hfb
        rw [delegate_eq_retry op s hc hop hfb hfc]
        constructor
        · show opCount (_ ++ _ ++ _ ++ _) = 2
          rw [opCount_append, opCount_append, opCount_append, he0, hf0,
            opCount_single_op, opCount_single_op]
        · rfl

/-- Witness for C2: on the example state the selected IndexedDB backend
serves the operation at the first try, with exactly one invocation. -/
theorem c2_delegate_single_retry_witness :
    (BackendManager.ensureConnection exampleState).2.1.current = some idbUp
    ∧ (BackendManager.delegate (fun b => b.addResult) exampleState).1 = .ok true
    ∧ opCount (BackendManager.delegate (fun b => b.addResult) exampleState).2.2 = 1 := by
  refine ⟨by decide, ?_, ?_⟩
  · exact (((c2_delegate_single_retry (fun b => b.addResult) exampleState).2.2
      idbUp (by decide)).1 true (by decide)).1
  · exact (((c2_delegate_single_retry (fun b => b.addResult) exampleState).2.2
      idbUp (by decide)).1 true (by decide)).2

/-- C7: `setBackend(backendType)` stops the health check, runs a fresh
priority-ordered `connect()` pass, and restarts the health check on success;
its result is independent of the requested backend id (the id is never
consulted, so the call cannot pin to the requested provider), and it throws
when no provider connects. -/
theorem c7_setBackend_ignores_requested_id (s : ManagerState) (t t' : String) :
    setBackend s t = setBackend s t'
    ∧ ((BackendManager.connect (BackendManager.stopHealthCheck s)).1 = true →
        (setBackend s t).1 = .ok (BackendManager.startHealthCheck
            (BackendManager.connect (BackendManager.stopHealthCheck s)).2.1)
        ∧ ManagerState.healthCheckRunning (BackendManager.startHealthCheck
            (BackendManager.connect (BackendManager.stopHealthCheck s)).2.1) = true)
    ∧ ((BackendManager.connect (BackendManager.stopHealthCheck s)).1 = false →
        (setBackend s t).1 = .error "Failed to connect to any backend") := by
  refine ⟨rfl, fun hok => ⟨?_, rfl⟩, fun hko => ?_⟩
  · simp [setBackend, hok]
  · simp [setBackend, hko]

/-- A relay descriptor whose backend is reachable. -/
def relayUp : BackendConfig :=
  { id := "relay", name := "Local Relay", priority := 1,
    backend := { connectOk := true, connected := true, addResult := some true } }

/-- Example manager state in which both providers are reachable. -/
def bothUpState : ManagerState :=
  { backends := [relayUp, idbUp], current := none, attempts := [],
    fallbackInProgress := false, healthCheckRunning := false }

/-- Witness for C7: requesting the IndexedDB backend while the
higher-priority relay is reachable behaves identically to requesting the
relay, and the provider selected is the relay, not the requested one. -/
theorem c7_setBackend_ignores_requested_id_witness :
    setBackend bothUpState "idb" = setBackend bothUpState "relay"
    ∧ ((setBackend bothUpState "idb").1.toOption.map fun m =>
        m.current.map fun c => c.id) = some (some "relay")
    ∧ (setBackend exampleState "idb").1 = .ok (BackendManager.startHealthCheck
        (BackendManager.connect (BackendManager.stopHealthCheck exampleState)).2.1) := by
  refine ⟨(c7_setBackend_ignores_requested_id bothUpState "idb" "relay").1, by decide, ?_⟩
  exact ((c7_setBackend_ignores_requested_id exampleState "idb" "x").2.1 (by decide)).1

/-! ### The `replaceable` query of the nostr-idb backend
(`src/background/backends/nostr-idb.ts`). -/

/-- Modelled from the spec: the address-pointer query capability of the
external store (`getEventsFromAddressPointers` of the nostr-idb library,
declared out of scope by the spec as `queryByAddress(pointers)`): an event
matches the pointer `{kind, pubkey, identifier}` when its kind and author
agree and, when an identifier is given, its first `d` tag carries that
identifier (the matching rule also implemented by the repository's legacy
`getReplaceableEvent`). -/
def matchesAddressPointer (kind : Int) (author : String) (identifier : Option String)
    (e : NostrEvent) : Bool :=
  e.kind == kind && e.pubkey == author &&
    (match identifier with
     | some ident =>
       (match e.tags.find? (fun t => t.head? == some "d") with
        | some dTag => dTag.get? 1 == some ident
        | none => false)
     | none => true)

/-- The tail of `NostrIdbBackend.replaceable`: `undefined` on an empty
result, otherwise `events.reduce((a, b) => b.created_at > a.created_at ? b : a)`
(JavaScript `reduce` without initial value folds from the first element). -/
def latestOf : List NostrEvent → Option NostrEvent
  | [] => none
  | e :: rest =>
    some (rest.foldl (fun a b => if b.created_at > a.created_at then b else a) e)

namespace NostrIdbBackend

/-- `replaceable(kind, author, identifier?)`: query the store by the address
pointer and return the latest matching event (highest `created_at`). -/
def replaceable (store : List NostrEvent) (kind : Int) (author : String)
    (identifier : Option String) : Option NostrEvent :=
  latestOf (store.filter (matchesAddressPointer kind author identifier))

end NostrIdbBackend

theorem foldl_latest_mem (l : List NostrEvent) (a : NostrEvent) :
    l.foldl (fun a b => if b.created_at > a.created_at then b else a) a ∈ a :: l := by
  induction l generalizing a with
  | nil => simp
  | cons x t ih =>
    rw [List.foldl_cons]
    by_cases hgt : x.created_at > a.created_at
    · rw [if_pos hgt]
      rcases List.mem_cons.mp (ih x) with h | h
      · rw [h]
        exact List.mem_cons_of_mem a (List.mem_cons_self x t)
      · exact List.mem_cons_of_mem a (List.mem_cons_of_mem x h)
    · rw [if_neg hgt]
      rcases List.mem_cons.mp (ih a) with h | h
      · rw [h]
        exact List.mem_cons_self a (x :: t)
      · exact List.mem_cons_of_mem a (List.mem_cons_of_mem x h)

theorem foldl_latest_ge (l : List NostrEvent) (a : NostrEvent) :
    ∀ e ∈ a :: l,
      e.created_at ≤
        (l.foldl (fun a b => if b.created_at > a.created_at then b else a) a).created_at := by
  induction l generalizing a with
  | nil =>
    intro e he
    rw [List.mem_singleton.mp he]
    exact le_refl _
  | cons x t ih =>
    intro e he
    rw [List.foldl_cons]
    have hstep : a.created_at ≤ (if x.created_at > a.created_at then x else a).created_at
        ∧ x.created_at ≤ (if x.created_at > a.created_at then x else a).created_at := by
      by_cases hgt : x.created_at > a.created_at
      · rw [if_pos hgt]
        exact ⟨le_of_lt hgt, le_refl _⟩
      · rw [if_neg hgt]
        exact ⟨le_refl _, le_of_not_lt hgt⟩
    rcases List.mem_cons.mp he with h | h
    · subst h
      exact hstep.1.trans (ih _ _ (List.mem_cons_self _ t))
    · rcases List.mem_cons.mp h with h2 | h2
      · subst h2
        exact hstep.2.trans (ih _ _ (List.mem_cons_self _ t))
      · exact ih _ e (List.mem_cons_of_mem _ h2)

theorem latestOf_mem {l : List NostrEvent} {m : NostrEvent} (h : latestOf l = some m) :
    m ∈ l := by
  cases l with
  | nil => cases h
  | cons a t =>
    injection h with hm
    rw [← hm]
    exact foldl_latest_mem t a

theorem latestOf_ub {l : List NostrEvent} {m : NostrEvent} (h : latestOf l = some m) :
    ∀ e ∈ l, e.created_at ≤ m.created_at := by
  cases l with
  | nil => cases h
  | cons a t =>
    injection h with hm
    rw [← hm]
    exact foldl_latest_ge t a

theorem latestOf_none_iff {l : List NostrEvent} : latestOf l = none ↔ l = [] := by
  cases l with
  | nil => simp [latestOf]
  | cons a t => simp [latestOf]

/-- C8: for every store, `replaceable(kind, author, identifier)` returns an
event that matches the address key and has the maximum `created_at` among
all matching stored events; it returns `undefined` (not an error) exactly
when no stored event matches; and the `created_at` of the result does not
depend on the order in which the events were added to the store (any
permutation of the store yields the same maximal timestamp). -/
theorem c8_replaceable_latest (store store' : List NostrEvent) (kind : Int)
    (author : String) (identifier : Option String) (hperm : store.Perm store') :
    (∀ e, NostrIdbBackend.replaceable store kind author identifier = some e →
      matchesAddressPointer kind author identifier e = true
      ∧ e ∈ store
      ∧ ∀ f ∈ store, matchesAddressPointer kind author identifier f = true →
          f.created_at ≤ e.created_at)
    ∧ (NostrIdbBackend.replaceable store kind author identifier = none ↔
        ∀ e ∈ store, matchesAddressPointer kind author identifier e = false)
    ∧ ((NostrIdbBackend.replaceable store kind author identifier).map
          (fun e => e.created_at)
        = (NostrIdbBackend.replaceable store' kind author identifier).map
          (fun e => e.created_at)) := by
  have hpf : (store.filter (matchesAddressPointer kind author identifier)).Perm
      (store'.filter (matchesAddressPointer kind author identifier)) :=
    hperm.filter _
  have main : ∀ (st : List NostrEvent) (e : NostrEvent),
      NostrIdbBackend.replaceable st kind author identifier = some e →
      matchesAddressPointer kind author identifier e = true
      ∧ e ∈ st
      ∧ ∀ f ∈ st, matchesAddressPointer kind author identifier f = true →
          f.created_at ≤ e.created_at := by
    intro st e he
    have hmem := latestOf_mem he
    have hub := latestOf_ub he
    refine ⟨(List.mem_filter.mp hmem).2, (List.mem_filter.mp hmem).1, ?_⟩
    intro f hf hmf
    exact hub f (List.mem_filter.mpr ⟨hf, hmf⟩)
  refine ⟨main store, ?_, ?_⟩
  · rw [show NostrIdbBackend.replaceable store kind author identifier =
      latestOf (store.filter (matchesAddressPointer kind author identifier)) from rfl]
    rw [latestOf_none_iff, List.filter_eq_nil_iff]
    constructor
    · intro h e he
      have := h e he
      simpa using this
    · intro h e he
      simp [h e he]
  · cases hres : NostrIdbBackend.replaceable store kind author identifier with
    | none =>
      have hnil : store.filter (matchesAddressPointer kind author identifier) = [] :=
        latestOf_none_iff.mp hres
      have hnil' : store'.filter (matchesAddressPointer kind author identifier) = [] :=
        List.Perm.eq_nil (hnil ▸ hpf.symm)
      have hres' : NostrIdbBackend.replaceable store' kind author identifier = none := by
        rw [show NostrIdbBackend.replaceable store' kind author identifier =
          latestOf (store'.filter (matchesAddressPointer kind author identifier)) from rfl,
          hnil']
        rfl
      rw [hres']
    | some m =>
      have h1 := main store m hres
      cases hres' : NostrIdbBackend.replaceable store' kind author identifier with
      | none =>
        have hnil' : store'.filter (matchesAddressPointer kind author identifier) = [] :=
          latestOf_none_iff.mp hres'
        have : m ∈ store'.filter (matchesAddressPointer kind author identifier) :=
          List.mem_filter.mpr ⟨hperm.mem_iff.mp h1.2.1, h1.1⟩
        rw [hnil'] at this
        cases this
      | some m' =>
        have h2 := main store' m' hres'
        have hle : m.created_at ≤ m'.created_at :=
          h2.2.2 m (hperm.mem_iff.mp h1.2.1) h1.1
        have hge : m'.created_at ≤ m.created_at :=
          h1.2.2 m' (hperm.mem_iff.mpr h2.2.1) h2.1
        simp [le_antisymm hle hge]

/-- Witness for C8: a two-event store where the newer event was added first;
the query returns the newer timestamp from either insertion order. -/
theorem c8_replaceable_latest_witness :
    (NostrIdbBackend.replaceable
        [{ id := "b", pubkey := "alice", created_at := 20, kind := 0, tags := [],
           content := "new", sig := "s2" },
         { id := "a", pubkey := "alice", created_at := 10, kind := 0, tags := [],
           content := "old", sig := "s1" }] 0 "alice" none).map (fun e => e.created_at)
      = some 20
    ∧ (NostrIdbBackend.replaceable
        [{ id := "a", pubkey := "alice", created_at := 10, kind := 0, tags := [],
           content := "old", sig := "s1" },
         { id := "b", pubkey := "alice", created_at := 20, kind := 0, tags := [],
           content := "new", sig := "s2" }] 0 "alice" none).map (fun e => e.created_at)
      = some 20 := by
  have h := (c8_replaceable_latest
    [{ id := "b", pubkey := "alice", created_at := 20, kind := 0, tags := [],
       content := "new", sig := "s2" },
     { id := "a", pubkey := "alice", created_at := 10, kind := 0, tags := [],
       content := "old", sig := "s1" }]
    [{ id := "a", pubkey := "alice", created_at := 10, kind := 0, tags := [],
       content := "old", sig := "s1" },
     { id := "b", pubkey := "alice", created_at := 20, kind := 0, tags := [],
       content := "new", sig := "s2" }] 0 "alice" none (by
        exact List.Perm.swap _ _ [])).2.2
  constructor
  · decide
  · rw [← h]
    decide

/-! ### The active-stream registry of `src/background/rpc-handler.ts`

`activeStreams` is a map from stream id to descriptor; every descriptor
stored by `handleStreamSubscription` carries the provider-level subscription
handle.  The handlers installed for a stream consult only membership of the
id in the map, so the registry is embedded as the list of registered ids.
Envelopes sent to the requesting tab (`browser.tabs.sendMessage`) are
collected as the output of each handler. -/

/-- A `BackgroundStreamEvent` envelope: `{streamId, event?, done?, error?}`
(also the shape of the inject-side `StreamMessage`). -/
structure StreamEnvelope where
  streamId : String
  event : Option NostrEvent := none
  done : Bool := false
  error : Option String := none
  deriving Repr, DecidableEq

/-- The `event` handler of `handleStreamSubscription`: if the stream id is no
longer registered the event is dropped (`if (!activeStreams.has(streamId))
return`), otherwise an event envelope is sent; the registry is unchanged. -/
def onStreamEvent (streams : List String) (sid : String) (e : NostrEvent) :
    List StreamEnvelope × List String :=
  if sid ∈ streams then
    ([{ streamId := sid, event := some e }], streams)
  else
    ([], streams)

/-- The `error` handler of `handleStreamSubscription`: an error envelope is
sent unconditionally and the registry is left unchanged. -/
def onStreamError (streams : List String) (sid : String) (msg : String) :
    List StreamEnvelope × List String :=
  ([{ streamId := sid, error := some msg }], streams)

/-- The `complete` handler of `handleStreamSubscription`: a done envelope is
sent unconditionally, then the descriptor is deleted. -/
def onStreamComplete (streams : List String) (sid : String) :
    List StreamEnvelope × List String :=
  ([{ streamId := sid, done := true }], streams.filter fun x => !(x == sid))

/-- The `close_stream` case of `handleRpcRequest`: call the stored
provider-level subscription's `close()` (every stored descriptor has one)
and delete the descriptor; no terminal envelope is sent to the requester.
Returns the new registry and whether a provider-level `close()` happened. -/
def closeStream (streams : List String) (sid : String) : List String × Bool :=
  (streams.filter (fun x => !(x == sid)), decide (sid ∈ streams))

/-- A signal pushed by the provider-level subscription for one stream. -/
inductive ProviderSignal where
  | ev (e : NostrEvent)
  | fail (msg : String)
  | complete
  deriving Repr, DecidableEq

/-- Dispatch one provider signal to the registered handlers of a stream. -/
def stepSignal (streams : List String) (sid : String) :
    ProviderSignal → List StreamEnvelope × List String
  | .ev e => onStreamEvent streams sid e
  | .fail msg => onStreamError streams sid msg
  | .complete => onStreamComplete streams sid

/-- Run a sequence of provider signals for one stream, collecting every
envelope sent to the requester. -/
def runSignals (sid : String) : List ProviderSignal → List String →
    List StreamEnvelope × List String
  | [], streams => ([], streams)
  | sig :: rest, streams =>
    let r := stepSignal streams sid sig
    let r2 := runSignals sid rest r.2
    (r.1 ++ r2.1, r2.2)

theorem not_mem_filter_self (l : List String) (x : String) :
    x ∉ l.filter fun y => !(y == x) := by
  intro h
  have := List.of_mem_filter h
  simp at this

theorem runSignals_no_event (sid : String) :
    ∀ (sigs : List ProviderSignal) (streams : List String), sid ∉ streams →
      ∀ env ∈ (runSignals sid sigs streams).1, env.event = none
  | [], _, _, env, henv => absurd henv (List.not_mem_nil env)
  | sig :: rest, streams, hout, env, henv => by
    simp only [runSignals] at henv
    cases sig with
    | ev e =>
      have hstep : stepSignal streams sid (.ev e) = ([], streams) := by
        simp [stepSignal, onStreamEvent, hout]
      rw [hstep] at henv
      simp only [List.nil_append] at henv
      exact runSignals_no_event sid rest streams hout env henv
    | fail msg =>
      rcases List.mem_append.mp henv with h | h
      · rw [List.mem_singleton.mp h]
      · exact runSignals_no_event sid rest streams hout env h
    | complete =>
      rcases List.mem_append.mp henv with h | h
      · rw [List.mem_singleton.mp h]
      · exact runSignals_no_event sid rest _ (not_mem_filter_self streams sid) env h

/-- Counterexample to C3 as stated: with stream `"s1"` closed (descriptor
removed), a provider completion still sends a done envelope to the
requester, and a provider error still sends an error envelope. -/
theorem c3_counterexample_closed_stream_still_signalled :
    (stepSignal (closeStream ["s1"] "s1").1 "s1" ProviderSignal.complete).1 =
      [{ streamId := "s1", event := none, done := true, error := none }]
    ∧ (stepSignal (closeStream ["s1"] "s1").1 "s1" (ProviderSignal.fail "boom")).1 =
      [{ streamId := "s1", event := none, done := false, error := some "boom" }]
    ∧ (stepSignal (closeStream ["s1"] "s1").1 "s1" ProviderSignal.complete).1 ≠ [] := by
  refine ⟨rfl, rfl, ?_⟩
  decide

/-- C3 amended: after `close_stream(id)` is handled, the provider-level
`close()` has been called iff a descriptor was present, the descriptor is
removed, and no further **event** envelope for that id is ever sent no
matter what the provider emits afterwards; however, a later provider error
or completion still sends its single error/done envelope. -/
theorem c3_closed_stream_drops_events (streams : List String) (sid : String)
    (e : NostrEvent) (msg : String) (sigs : List ProviderSignal) :
    sid ∉ (closeStream streams sid).1
    ∧ (closeStream streams sid).2 = decide (sid ∈ streams)
    ∧ onStreamEvent (closeStream streams sid).1 sid e = ([], (closeStream streams sid).1)
    ∧ (onStreamError (closeStream streams sid).1 sid msg).1 =
        [{ streamId := sid, error := some msg }]
    ∧ (onStreamComplete (closeStream streams sid).1 sid).1 =
        [{ streamId := sid, done := true }]
    ∧ (∀ env ∈ (runSignals sid sigs (closeStream streams sid).1).1, env.event = none) := by
  refine ⟨not_mem_filter_self streams sid, rfl, ?_, rfl, rfl, ?_⟩
  · simp [onStreamEvent, closeStream, not_mem_filter_self streams sid]
  · exact runSignals_no_event sid sigs _ (not_mem_filter_self streams sid)

/-- A concrete event used by the stream witnesses. -/
def sampleEvent : NostrEvent :=
  { id := "e", pubkey := "p", created_at := 1, kind := 1, tags := [],
    content := "", sig := "" }

/-- Witness for C3 (amended): closing the only stream and then feeding an
event, an error and a completion produces no event envelope. -/
theorem c3_closed_stream_drops_events_witness :
    (∀ env ∈ (runSignals "s1"
        [ProviderSignal.ev sampleEvent, ProviderSignal.fail "late",
         ProviderSignal.complete]
        (closeStream ["s1"] "s1").1).1, env.event = none)
    ∧ "s1" ∉ (closeStream ["s1"] "s1").1 := by
  refine ⟨(c3_closed_stream_drops_events ["s1"] "s1" sampleEvent "late"
    [ProviderSignal.ev sampleEvent, ProviderSignal.fail "late",
     ProviderSignal.complete]).2.2.2.2.2, by decide⟩

/-- Counterexample to C4 as stated: an error envelope does not remove the
descriptor (the registry still holds `"s1"`), and two provider completions
deliver the done envelope twice for the same stream id. -/
theorem c4_counterexample_terminal_not_once :
    (onStreamError ["s1"] "s1" "boom").2 = ["s1"]
    ∧ (runSignals "s1" [ProviderSignal.complete, ProviderSignal.complete] ["s1"]).1 =
        [{ streamId := "s1", done := true }, { streamId := "s1", done := true }] := by
  constructor
  · rfl
  · rfl

/-- C4 amended: delivering `done` removes the stream's descriptor (and
subsequent provider events are dropped), but delivering `error` leaves the
descriptor registered, and neither terminal signal is deduplicated by the
registry: every provider error or completion sends exactly one envelope
unconditionally, so a repeated terminal provider signal is forwarded again. -/
theorem c4_done_removes_error_does_not (streams : List String) (sid : String)
    (msg msg2 : String) (e : NostrEvent) :
    (onStreamComplete streams sid).2 = (streams.filter fun x => !(x == sid))
    ∧ sid ∉ (onStreamComplete streams sid).2
    ∧ (onStreamEvent (onStreamComplete streams sid).2 sid e).1 = []
    ∧ (onStreamError streams sid msg).2 = streams
    ∧ (onStreamComplete streams sid).1.length = 1
    ∧ (onStreamError streams sid msg).1.length = 1
    ∧ (onStreamError (onStreamError streams sid msg).2 sid msg2).1 =
        [{ streamId := sid, error := some msg2 }]
    ∧ (onStreamComplete (onStreamComplete streams sid).2 sid).1 =
        [{ streamId := sid, done := true }] := by
  refine ⟨rfl, not_mem_filter_self streams sid, ?_, rfl, rfl, rfl, rfl, rfl⟩
  simp [onStreamEvent, onStreamComplete, not_mem_filter_self streams sid]

/-! ### Method routing of `handleRpcRequest` and the content script
(`src/background/rpc-handler.ts`, `src/content/index.ts`). -/

/-- A `{success, result?, error?}` response envelope, with the payload
abstracted away (only the success flag and error string matter here). -/
structure RpcResponse where
  success : Bool
  error : Option String := none
  deriving Repr, DecidableEq

/-- What one `handleRpcRequest` switch case does with a request: forward it
to the named `methods.ts` function (one-shot), start a stream subscription
(`filters`/`subscribe` with a tab id and a stream id), close a stream
(`close_stream`), or answer immediately with a failure response. -/
inductive DispatchOutcome where
  | delegated (fn : String)
  | streamStarted
  | streamClosed
  | rejected (error : String)
  deriving Repr, DecidableEq

/-- The method switch of `handleRpcRequest`, case by case; `hasTabId` and
`hasStreamId` are whether the request carries a tab id and a stream id. -/
def dispatchRpc (method : String) (hasTabId : Bool) (hasStreamId : Bool) :
    DispatchOutcome :=
  match method with
  | "add" => .delegated "addEvent"
  | "event" => .delegated "getEvent"
  | "replaceable" => .delegated "getReplaceableEvent"
  | "count" => .delegated "countEvents"
  | "filters" | "subscribe" =>
    if !hasTabId then .rejected "No tab ID"
    else if hasStreamId then .streamStarted
    else .rejected "Stream ID required for stream methods"
  | "close_stream" => .streamClosed
  | "supports" => .delegated "getSupportedFeatures"
  | "set_backend" => .delegated "setBackend"
  | "get_backend" => .delegated "getCurrentBackendType"
  | "get_backend_status" => .delegated "getBackendStatus"
  | "get_backends" => .delegated "getBackends"
  | "reconnect_backends" => .delegated "reconnectBackends"
  | "is_backend_connected" => .delegated "isBackendConnected"
  | _ => .rejected "Unknown method"

/-- Whether the outcome invokes `handleStreamSubscription` (the only path
that creates a provider-level subscription). -/
def startsStream : DispatchOutcome → Bool
  | .streamStarted => true
  | _ => false

/-- The immediate response the dispatcher sends for an outcome it answers
itself (a `delegated` outcome's response depends on the called function). -/
def outcomeResponse : DispatchOutcome → Option RpcResponse
  | .rejected e => some { success := false, error := some e }
  | _ => none

/-- How the active-stream registry changes with each dispatch outcome:
only a started stream registers a descriptor and only `close_stream`
removes one. -/
def registryAfterDispatch (streams : List String) (o : DispatchOutcome)
    (sid : String) : List String :=
  match o with
  | .streamStarted => sid :: streams
  | .streamClosed => streams.filter fun x => !(x == sid)
  | _ => streams

/-- The stream-method list of the content script's `handleRequest`:
`["filters", "search", "subscribe"].includes(message.method)`. -/
def contentStreamMethods : List String := ["filters", "search", "subscribe"]

/-- `isStreamMethod` in the content script. -/
def isStreamMethod (m : String) : Bool := contentStreamMethods.contains m

/-- The content script's `handleStreamRequest` reaction to the background's
response: on success it registers the stream locally and installs the
listener (no response is posted to the page); on failure it posts an error
response envelope to the page and registers nothing. -/
def contentHandleStreamResponse (pageStreams : List String) (id : String)
    (resp : RpcResponse) : List String × Option RpcResponse :=
  if resp.success then
    (id :: pageStreams, none)
  else
    (pageStreams, some { success := false, error := resp.error })

/-- C9: the façade exposes `search(query, filters)` and the content script
classifies `"search"` as a stream method and forwards it to the background;
the background dispatcher has no `"search"` case and answers with
`success = false` and the `"Unknown method"` error; consequently no search
request ever starts a provider subscription or changes the stream registry,
and the content script posts the error response back to the page without
registering a stream — so no event is ever delivered for a search call. -/
theorem c9_search_method_unhandled :
    isStreamMethod "search" = true
    ∧ (∀ hasTabId hasStreamId,
        dispatchRpc "search" hasTabId hasStreamId = .rejected "Unknown method")
    ∧ (∀ hasTabId hasStreamId,
        outcomeResponse (dispatchRpc "search" hasTabId hasStreamId) =
          some { success := false, error := some "Unknown method" })
    ∧ (∀ hasTabId hasStreamId,
        startsStream (dispatchRpc "search" hasTabId hasStreamId) = false)
    ∧ (∀ streams sid hasTabId hasStreamId,
        registryAfterDispatch streams (dispatchRpc "search" hasTabId hasStreamId) sid
          = streams)
    ∧ (∀ pageStreams id,
        contentHandleStreamResponse pageStreams id
            { success := false, error := some "Unknown method" } =
          (pageStreams, some { success := false, error := some "Unknown method" })) := by
  refine ⟨rfl, ?_, ?_, ?_, ?_, ?_⟩
  · intro ht hs
    rfl
  · intro ht hs
    rfl
  · intro ht hs
    rfl
  · intro streams sid ht hs
    rfl
  · intro ps id
    rfl

/-! ### The page façade of `src/inject/index.ts`: request correlation,
timeout, and stream message handling. -/

/-- A `ResponseMessage` as the façade's `handleResponse` consumes it:
`{id, success, result?, error?}` (payload abstracted to a string). -/
structure ResponseMessage where
  id : String
  success : Bool
  result : Option String := none
  error : Option String := none
  deriving Repr, DecidableEq

/-- The settlement of a pending promise. -/
inductive SettleOutcome where
  | fulfilled (result : Option String)
  | rejected (message : String)
  deriving Repr, DecidableEq

/-- `handleResponse`: if the envelope's id matches a pending entry, the
entry is removed and the promise resolves with the result or rejects with
`message.error || "Unknown error"`; otherwise the envelope is dropped. -/
def handleResponse (pending : List String) (m : ResponseMessage) :
    List String × Option SettleOutcome :=
  if m.id ∈ pending then
    (pending.filter (fun x => !(x == m.id)),
     some (if m.success then .fulfilled m.result
       else .rejected
         (match m.error with
          | some err => if err = "" then "Unknown error" else err
          | none => "Unknown error")))
  else
    (pending, none)

/-- The timeout `sendMessage` installs on every one-shot call, in
milliseconds. -/
def requestTimeoutMs : Nat := 30000

/-- The timeout callback of `sendMessage`: if the id is still pending, the
entry is removed and the promise rejects with `"Request timeout"`; if the
response already arrived, nothing happens. -/
def onRequestTimeout (pending : List String) (id : String) :
    List String × Option SettleOutcome :=
  if id ∈ pending then
    (pending.filter (fun x => !(x == id)), some (.rejected "Request timeout"))
  else
    (pending, none)

/-- C6: the façade's one-shot timeout is 30 seconds; when it fires with the
request still pending, the promise rejects with the timeout error and the
pending entry is removed; a response envelope whose id matches no pending
entry is silently dropped (no state change, no settlement); hence a late
response arriving after the timeout for the same id has no effect. -/
theorem c6_timeout_then_late_response_dropped (pending : List String) (id : String)
    (m : ResponseMessage) :
    requestTimeoutMs = 30000
    ∧ (id ∈ pending →
        onRequestTimeout pending id =
          (pending.filter (fun x => !(x == id)), some (.rejected "Request timeout")))
    ∧ id ∉ (onRequestTimeout pending id).1
    ∧ (m.id ∉ pending → handleResponse pending m = (pending, none))
    ∧ (m.id = id →
        handleResponse (onRequestTimeout pending id).1 m =
          ((onRequestTimeout pending id).1, none)) := by
  refine ⟨rfl, ?_, ?_, ?_, ?_⟩
  · intro h
    simp [onRequestTimeout, h]
  · by_cases h : id ∈ pending
    · simp only [onRequestTimeout, h, if_true]
      exact not_mem_filter_self pending id
    · simp [onRequestTimeout, h]
  · intro h
    simp [handleResponse, h]
  · intro hm
    subst hm
    by_cases h : m.id ∈ pending
    · simp only [onRequestTimeout, h, if_true]
      simp [handleResponse, not_mem_filter_self pending m.id]
    · simp [onRequestTimeout, h, handleResponse]

/-- Witness for C6: a pending request times out (entry removed, rejected
with the timeout error), and the late matching response is then dropped. -/
theorem c6_timeout_then_late_response_dropped_witness :
    onRequestTimeout ["req_1"] "req_1" =
      ([], some (.rejected "Request timeout"))
    ∧ handleResponse (onRequestTimeout ["req_1"] "req_1").1
        { id := "req_1", success := true } =
      ((onRequestTimeout ["req_1"] "req_1").1, none) := by
  have h := c6_timeout_then_late_response_dropped ["req_1"] "req_1"
    { id := "req_1", success := true }
  refine ⟨?_, h.2.2.2.2 rfl⟩
  have := h.2.1 (by decide)
  simpa using this

/-- Witness for C4 (amended): a provider error leaves the descriptor in the
registry, while a completion removes it. -/
theorem c4_done_removes_error_does_not_witness :
    (onStreamError ["s1"] "s1" "boom").2 = ["s1"]
    ∧ "s1" ∉ (onStreamComplete ["s1"] "s1").2 := by
  have h := c4_done_removes_error_does_not ["s1"] "s1" "boom" "late" sampleEvent
  exact ⟨h.2.2.2.1, h.2.1⟩

/-- The façade's per-stream bookkeeping: `activeStreams`, `streamQueues`
and `streamResolvers` (the waiting iterator continuations, abstracted to
their count per stream id). -/
structure FacadeStreams where
  activeStreams : List String
  queues : List (String × List NostrEvent)
  resolvers : List (String × Nat)
  deriving Repr, DecidableEq

/-- Remove a key from an association list (`Map.delete`). -/
def removeKey {α : Type} (m : List (String × α)) (k : String) : List (String × α) :=
  m.filter fun p => !(p.1 == k)

/-- `streamQueues.get(streamId) || []`. -/
def queueOf (s : FacadeStreams) (sid : String) : List NostrEvent :=
  (List.lookup sid s.queues).getD []

/-- `streamResolvers.get(streamId) || []`, abstracted to its length. -/
def resolverCount (s : FacadeStreams) (sid : String) : Nat :=
  (List.lookup sid s.resolvers).getD 0

/-- What a waiting iterator continuation is resolved with:
`{done: true, value: undefined}` or `{done: false, value: event}`. -/
inductive IterOutcome where
  | finished
  | value (e : NostrEvent)
  deriving Repr, DecidableEq

/-- `handleStreamMessage` of the façade: a done envelope resolves every
waiting continuation with `{done: true}` and deletes the stream from all
three maps; an error envelope does exactly the same (the error message is
discarded); an event envelope is appended to the queue and additionally
handed to one waiting continuation when any is waiting (the code resolves
the continuation without dequeuing). -/
def handleStreamMessage (s : FacadeStreams) (m : StreamEnvelope) :
    FacadeStreams × List IterOutcome :=
  if m.done then
    ({ activeStreams := s.activeStreams.filter (fun x => !(x == m.streamId)),
       queues := removeKey s.queues m.streamId,
       resolvers := removeKey s.resolvers m.streamId },
     List.replicate (resolverCount s m.streamId) .finished)
  else if m.error.isSome then
    ({ activeStreams := s.activeStreams.filter (fun x => !(x == m.streamId)),
       queues := removeKey s.queues m.streamId,
       resolvers := removeKey s.resolvers m.streamId },
     List.replicate (resolverCount s m.streamId) .finished)
  else
    match m.event with
    | some e =>
      let s1 : FacadeStreams :=
        { s with queues :=
            (m.streamId, queueOf s m.streamId ++ [e]) :: removeKey s.queues m.streamId }
      if resolverCount s m.streamId > 0 then
        ({ s1 with resolvers :=
            (m.streamId, resolverCount s m.streamId - 1) ::
              removeKey s.resolvers m.streamId },
         [.value e])
      else
        (s1, [])
    | none => (s, [])

/-- C10: the façade handles a stream error envelope identically to a done
envelope — same resulting bookkeeping state and the same outcomes for every
waiting iterator, namely normal termination (`{done: true}`) — and the error
message is discarded, so a page-side consumer cannot observe whether a
stream ended by completion or by error. -/
theorem c10_stream_error_equals_done (s : FacadeStreams) (sid : String)
    (msg : String) (ev : Option NostrEvent) :
    handleStreamMessage s { streamId := sid, done := true }
      = handleStreamMessage s { streamId := sid, event := ev, error := some msg }
    ∧ (handleStreamMessage s { streamId := sid, event := ev, error := some msg }).2
      = List.replicate (resolverCount s sid) .finished := by
  constructor
  · rfl
  · rfl

end NostrBucket
